import Mathlib

/-
  Verification of the gdpr-guardian DSAR workflow engine.

  Shallow embedding of the Python sources:
    src/tools/pii_tool.py      (PII detection and masking)
    src/agent/hooks.py         (guardrail evaluators)
    src/agent/plan.py          (run record, workflow steps)

  Strings that the Python code manipulates by index are modelled as
  List Char; identifiers and enumeration-like strings are Lean String.
  Python floats are modelled as rationals (the claims only compare them,
  and comparison of the denoted reals is what matters).  External inputs
  (JSON files, the Gmail tool, the clock, the ISO-8601 date parser from
  the standard library and the working directory) are supplied through an
  Env record, mirroring the try/except fallbacks of the code.
-/

namespace GdprGuardian

/-! ## Python string primitives -/

/-- Whitespace characters recognised by the Python str.strip default and
by the regex class backslash-s (ASCII range). -/
def isPyWhitespace (c : Char) : Bool :=
  c = ' ' || c = '\t' || c = '\n' || c = '\r' || c = '\x0b' || c = '\x0c'

/-- Python str.strip with no argument: drop leading whitespace. -/
def pyStripLeft (l : List Char) : List Char :=
  l.dropWhile isPyWhitespace

/-- Python str.strip with no argument: drop trailing whitespace. -/
def pyStripRight (l : List Char) : List Char :=
  (l.reverse.dropWhile isPyWhitespace).reverse

/-- Python str.strip with no argument. -/
def pyStrip (l : List Char) : List Char :=
  pyStripRight (pyStripLeft l)

/-- Python str.lower, modelled per character (ASCII case folding). -/
def pyLower (l : List Char) : List Char :=
  l.map Char.toLower

/-- Python str.split with a one-character separator. -/
def splitOnChar (sep : Char) : List Char → List (List Char)
  | [] => [[]]
  | c :: rest =>
    match splitOnChar sep rest with
    | [] => [[]]
    | h :: t => if c = sep then [] :: h :: t else (c :: h) :: t

/-! ## src/tools/pii_tool.py -/

/-- Character class of the local part of EMAIL_RE. -/
def isEmailLocalChar (c : Char) : Bool :=
  c.isAlpha || c.isDigit || c = '.' || c = '_' || c = '%' || c = '+' || c = '-'

/-- Character class of the domain part of EMAIL_RE. -/
def isEmailDomainChar (c : Char) : Bool :=
  c.isAlpha || c.isDigit || c = '.' || c = '-'

/-- Character class of the repeated body of PHONE_RE. -/
def isPhoneClassChar (c : Char) : Bool :=
  c.isDigit || c = '-' || c = '.' || isPyWhitespace c

/-- Length of the maximal run of characters satisfying p starting at
position i (how far a greedy character-class quantifier reaches). -/
def classRun (p : Char → Bool) (text : List Char) (i : Nat) : Nat :=
  ((text.drop i).takeWhile p).length

/-- Largest m with m at most n satisfying p, the order in which a
backtracking greedy quantifier retries shorter matches. -/
def searchDown (p : Nat → Bool) : Nat → Option Nat
  | 0 => if p 0 then some 0 else none
  | n + 1 => if p (n + 1) then some (n + 1) else searchDown p n

/-- Anchored match of EMAIL_RE at position i, returning the match end.
EMAIL_RE is local-class repeated, at-sign, domain-class repeated, dot,
two or more letters; the domain quantifier backtracks to expose the
final dot and top-level-domain letters. -/
def matchEmailAt (text : List Char) (i : Nat) : Option Nat :=
  let r1 := classRun isEmailLocalChar text i
  if r1 = 0 then none
  else if text.get? (i + r1) = some '@' then
    let j := i + r1 + 1
    let r2 := classRun isEmailDomainChar text j
    match searchDown
        (fun m => decide (1 ≤ m) && (text.get? (j + m) == some '.') &&
          decide (2 ≤ classRun Char.isAlpha text (j + m + 1))) r2 with
    | some m => some (j + m + 1 + classRun Char.isAlpha text (j + m + 1))
    | none => none
  else none

/-- Anchored match of PHONE_RE at position i, returning the match end.
PHONE_RE is optional plus sign, a digit, seven or more phone-class
characters, a digit; the greedy class quantifier backtracks to the last
digit inside its run. -/
def matchPhoneAt (text : List Char) (i : Nat) : Option Nat :=
  let j := if text.get? i = some '+' then i + 1 else i
  match text.get? j with
  | some c =>
    if c.isDigit then
      let k := classRun isPhoneClassChar text (j + 1)
      match searchDown
          (fun m => decide (7 ≤ m) && ((text.get? (j + 1 + m)).any Char.isDigit)) k with
      | some m => some (j + 1 + m + 1)
      | none => none
    else none
  | none => none

/-- Non-overlapping left-to-right scan, as re.finditer: try an anchored
match at each position, resume after the end of each match.  Fuel bounds
the number of iterations; every iteration advances the position. -/
def scanFrom (matchAt : List Char → Nat → Option Nat) (text : List Char) :
    Nat → Nat → List (Nat × Nat)
  | 0, _ => []
  | fuel + 1, i =>
    if i < text.length then
      match matchAt text i with
      | some e => (i, e) :: scanFrom matchAt text fuel (max e (i + 1))
      | none => scanFrom matchAt text fuel (i + 1)
    else []

/-- All matches of an anchored matcher in a text. -/
def scanAll (matchAt : List Char → Nat → Option Nat) (text : List Char) :
    List (Nat × Nat) :=
  scanFrom matchAt text (text.length + 1) 0

/-- The slice text[a:b] of Python (the value of a regex match). -/
def slice (text : List Char) (a b : Nat) : List Char :=
  (text.drop a).take (b - a)

/-- Python substring containment, needle in haystack. -/
def containsSub (needle : List Char) : List Char → Bool
  | [] => needle.isEmpty
  | c :: t => needle.isPrefixOf (c :: t) || containsSub needle t

/-- ADDRESS_HINTS of pii_tool.py. -/
def addressHints : List (List Char) :=
  ["street".toList, "ave".toList, "road".toList, "rd".toList, "st ".toList]

/-- A finding as produced by pii_tool.detect. -/
structure RawFinding where
  pii_type : String
  value : List Char
  start : Nat
  stop : Nat
  confidence : ℚ
deriving Repr, DecidableEq

/-- pii_tool.detect: email matches, then phone matches, then one
zero-offset address-context finding if any address hint occurs. -/
def detect (text : List Char) : List RawFinding :=
  ((scanAll matchEmailAt text).map
    (fun me => { pii_type := "email", value := slice text me.1 me.2,
                 start := me.1, stop := me.2, confidence := (0.99 : ℚ) }))
  ++ ((scanAll matchPhoneAt text).map
    (fun mp => { pii_type := "phone", value := slice text mp.1 mp.2,
                 start := mp.1, stop := mp.2, confidence := (0.9 : ℚ) }))
  ++ (if addressHints.any (fun h => containsSub h (pyLower text)) then
        [{ pii_type := "address", value := "<context>".toList,
           start := 0, stop := 0, confidence := (0.6 : ℚ) }]
      else [])

/-- Python value[-4:]. -/
def lastFour (value : List Char) : List Char :=
  value.drop (value.length - 4)

/-- pii_tool.mask_value. -/
def mask_value (pii_type : String) (value : List Char) : List Char :=
  if pii_type = "email" then
    match splitOnChar '@' value with
    | [a, b] => a.take 2 ++ "***@".toList ++ b
    | _ => "***".toList
  else if pii_type = "phone" then "***".toList ++ lastFour value
  else "[REDACTED]".toList

/-! ## Run record (plan.py PlanRunState) and nested records

Loosely typed nested dictionaries of the Python state are modelled as
records; a field that the code reads with .get and a None-sensitive
check is an Option, a field whose absence the code folds into a default
by truthiness is modelled with that default folded in. -/

/-- An artifact, plan.py collect_artifacts element shape. -/
structure Artifact where
  source : String
  id : String
  type : String
  content : List Char
deriving Repr, DecidableEq

/-- A PII finding recorded in the run state.  Offsets are integers: the
guards coerce them with int() and check sign explicitly. -/
structure Finding where
  artifact_id : String
  pii_type : String
  value : List Char
  start : Int
  «end» : Int
  confidence : ℚ
  third_party : Bool
deriving Repr, DecidableEq

/-- A redaction proposal, apply_minimization element shape. -/
structure Proposal where
  id : String
  artifact_id : String
  pii_type : String
  value : List Char
  masked_preview : List Char
  start : Int
  «end» : Int
  action : String
  third_party : Bool
deriving Repr, DecidableEq

/-- approvals.compliance: decision and justification (missing
justification reads as the empty string). -/
structure ComplianceApproval where
  decision : Option String
  justification : String
deriving Repr, DecidableEq

/-- approvals.legal. -/
structure LegalApproval where
  decision : Option String
deriving Repr, DecidableEq

/-- approvals mapping of the run state. -/
structure Approvals where
  compliance : Option ComplianceApproval
  legal : Option LegalApproval
  selected_proposals : Option (List String)
deriving Repr, DecidableEq

/-- policy.identity thresholds. -/
structure PolicyIdentity where
  min_confidence_for_auto_approval : Option ℚ
  min_confidence : Option ℚ
deriving Repr, DecidableEq

/-- policy.disclosure. -/
structure PolicyDisclosure where
  require_sections : List String
deriving Repr, DecidableEq

/-- policy.redaction. -/
structure PolicyRedaction where
  required_types : List String
  allow_override_with_justification : Bool
deriving Repr, DecidableEq

/-- policy.retention_policies; int(x or 0) folds None to 0 at use. -/
structure PolicyRetention where
  financial_transaction_days : Option Int
  active_service_days : Option Int
deriving Repr, DecidableEq

/-- policy.sla. -/
structure PolicySla where
  access_days : Option Int
deriving Repr, DecidableEq

/-- The policy mapping. -/
structure Policy where
  identity : PolicyIdentity
  disclosure : PolicyDisclosure
  redaction : PolicyRedaction
  retention_policies : PolicyRetention
  sla : PolicySla
deriving Repr, DecidableEq

/-- Metadata of an uploaded identity document. -/
structure Upload where
  filename : Option String
  size : Option Nat
deriving Repr, DecidableEq

/-- identity section of the run state. -/
structure Identity where
  status : Option String
  confidence : Option ℚ
  precomputed_confidence : Option ℚ
  email : Option String
  phone : Option String
  upload : Option Upload
deriving Repr, DecidableEq

/-- legal section of the run state.  hold and the retention flags are
read by truthiness (default false); allow_erasure is compared with
Python is False, so its absence is significant. -/
structure Legal where
  hold : Bool
  retain_financial_records : Bool
  retain_active_service : Bool
  allow_erasure : Option Bool
deriving Repr, DecidableEq

/-- One soft-deleted artifact reference, execute_erasure element. -/
structure ErasureRecord where
  id : String
  source : String
  status : String
deriving Repr, DecidableEq

/-- A source declared by discover_sources. -/
structure Source where
  name : String
  path : String
deriving Repr, DecidableEq

/-- A disclosure section value: static or templated text, the derived
categories mapping, or the static recipients list. -/
inductive DisclosureValue where
  | text (s : String)
  | categories (pii_categories : List String) (artifact_types : List String)
  | recipients (l : List String)
deriving Repr, DecidableEq

/-- Detail part of an audit entry, one shape per logging step. -/
inductive AuditDetail where
  | verifyIdentity (identity : Identity)
  | discoverSources (sources : List Source)
  | collectArtifacts (count : Nat)
  | detectPii (count : Nat) (third_party : Nat)
  | applyMinimization (proposals : Nat) (third_party : Nat)
  | assembleDisclosure (records : Nat) (pii : Nat) (disclosures : List String)
  | requestComplianceApproval (pending : Bool)
  | finalizeDelivery (delivered : Bool) (path : String)
  | evaluateLegalBasis (legal_hold : Bool) (reasons : List String) (allow_erasure : Bool)
  | requestLegalApproval (pending : Bool)
  | executeErasure (count : Nat)
  | confirmCompletion (erasure_confirmed : Bool) (deleted : Nat)
deriving Repr, DecidableEq

/-- One audit log entry: step name plus step detail. -/
structure AuditEntry where
  step : String
  detail : AuditDetail
deriving Repr, DecidableEq

/-- The run record, plan.py PlanRunState. -/
structure RunState where
  request_id : String
  subject_email : String
  request_types : List String
  artifacts : List Artifact
  pii_findings : List Finding
  redaction_proposals : List Proposal
  approvals : Approvals
  policy : Policy
  identity : Identity
  legal : Legal
  audit_log : List AuditEntry
  disclosures : List (String × DisclosureValue)
  delivery : Option String
  erasure : List ErasureRecord
deriving Repr, DecidableEq

/-- A guardrail decision of hooks.py. -/
structure Decision where
  allow : Bool
  reason : Option String
deriving Repr, DecidableEq

/-! ## src/agent/hooks.py -/

/-- approvals.compliance.decision with the get-chain defaults. -/
def complianceDecision (s : RunState) : Option String :=
  match s.approvals.compliance with
  | some c => c.decision
  | none => none

/-- approvals.compliance.justification, missing read as empty. -/
def complianceJustification (s : RunState) : String :=
  match s.approvals.compliance with
  | some c => c.justification
  | none => ""

/-- approvals.legal.decision with the get-chain defaults. -/
def legalDecision (s : RunState) : Option String :=
  match s.approvals.legal with
  | some l => l.decision
  | none => none

/-- hooks.pre_step_guard. -/
def pre_step_guard (s : RunState) (step : String) : Decision :=
  if step = "discover_sources" ∨ step = "collect_artifacts" then
    if s.identity.status ≠ some "verified" then
      { allow := false, reason := some "Identity not verified" }
    else { allow := true, reason := none }
  else { allow := true, reason := none }

/-- hooks.pre_finalize_guard. -/
def pre_finalize_guard (s : RunState) : Decision :=
  if s.legal.hold = true then
    { allow := false, reason := some "Legal hold active" }
  else
    let required := s.policy.disclosure.require_sections
    let missing := required.filter (fun k => !((s.disclosures.map Prod.fst).contains k))
    if missing ≠ [] then
      { allow := false,
        reason := some ("Missing disclosures: " ++ String.intercalate ", " missing) }
    else
      let required_types := s.policy.redaction.required_types
      if required_types ≠ [] then
        let required_findings :=
          s.pii_findings.filter (fun f => required_types.contains f.pii_type)
        if required_findings ≠ [] then
          let selected_ids := s.approvals.selected_proposals.getD []
          let selectedKeyed := s.redaction_proposals.filter
            (fun p => selected_ids.contains p.id && required_types.contains p.pii_type)
          let missing_required := (required_findings.filter (fun f =>
            !(selectedKeyed.any (fun p =>
              p.artifact_id == f.artifact_id && p.start == f.start &&
                p.«end» == f.«end»)))).length
          if missing_required > 0 then
            if s.policy.redaction.allow_override_with_justification = true ∧
                complianceJustification s ≠ "" then
              { allow := true, reason := none }
            else
              { allow := false,
                reason := some ("Missing required redactions: " ++ toString missing_required) }
          else { allow := true, reason := none }
        else { allow := true, reason := none }
      else { allow := true, reason := none }

/-- hooks.pre_erasure_guard. -/
def pre_erasure_guard (s : RunState) : Decision :=
  if s.legal.hold = true then
    { allow := false, reason := some "Legal hold active" }
  else if legalDecision s ≠ some "approved" then
    { allow := false, reason := some "Legal approval missing" }
  else if s.legal.allow_erasure = some false then
    if s.legal.retain_financial_records = true then
      { allow := false, reason := some "Data retained for financial regulations" }
    else if s.legal.retain_active_service = true then
      { allow := false, reason := some "Data retained for active service contract" }
    else { allow := false, reason := some "Legal basis not met" }
  else { allow := true, reason := none }

/-! ## External inputs (files, Gmail, clock, date parser, cwd) -/

/-- A message of data/gmail_export.json or of the live Gmail tool. -/
structure GmailMsg where
  id : String
  subject : String
  body : String
  snippet : String
deriving Repr, DecidableEq

/-- data/crm_profile.json; string fields read with str(x or ""). -/
structure CrmProfile where
  id : Option String
  email : String
  phone : String
  name : String
  address : String
deriving Repr, DecidableEq

/-- A readable file under data/files. -/
structure FileEntry where
  path : String
  content : List Char
deriving Repr, DecidableEq

/-- One entry of data/transaction_history.json; a missing, null or
non-string date is None here (the code skips it). -/
structure Txn where
  date : Option String
  product : String
deriving Repr, DecidableEq

/-- External collaborators and ambient inputs of the steps: each Option
is none when the corresponding read raises and the code falls into its
except branch.  parseDate is datetime.fromisoformat after the Z
replacement, returning a UTC timestamp in seconds; now is the current
UTC timestamp. -/
structure Env where
  gmail_export : Option (List GmailMsg)
  crm : Option CrmProfile
  files : List FileEntry
  gmail_available : Bool
  gmail_live : List GmailMsg
  transactions : Option (List Txn)
  now : Int
  parseDate : String → Option Int
  cwd : String

/-- os.path.basename for forward-slash paths. -/
def basename (p : String) : String :=
  (p.splitOn "/").getLastD ""

/-! ## src/agent/plan.py: helpers and steps -/

/-- A human-addressed pause request. -/
inductive ClarPayload where
  | identityVerification (threshold : ℚ) (upload_filename : Option String)
      (upload_size : Option Nat)
  | complianceApproval (records : Nat) (pii_categories : List String)
      (third_party_findings : Nat) (redaction_proposals : List Proposal)
      (decision : String) (justification : String)
  | legalApproval (request_type : String) (exemptions : List String)
      (decision : String) (notes : String)
deriving Repr, DecidableEq

/-- Clarification dataclass of plan.py.  The presentational message
string (it interpolates a formatted float) is not modelled; the typed
payload fields are. -/
structure Clarification where
  type : String
  payload : ClarPayload
deriving Repr, DecidableEq

/-- Result of one step invocation: the PlanStepResult fields together
with the mutated run record and the clarifications the invocation
appended to the plan. -/
structure StepOutcome where
  success : Bool
  error : Option String
  state : RunState
  clarifications : List Clarification
deriving Repr

/-- GDPRPlan.log: append one entry to the audit log. -/
def logState (s : RunState) (step : String) (d : AuditDetail) : RunState :=
  { s with audit_log := s.audit_log ++ [{ step := step, detail := d }] }

/-- Known identifier sets for the data subject. -/
structure KnownIds where
  emails : List (List Char)
  phones : List (List Char)
deriving Repr, DecidableEq

/-- GDPRPlan._known_subject_identifiers: subject email, CRM profile
email and phone, identity hints email and phone; emails normalised by
strip and lower, phones by strip.  Sets are modelled as lists, only
membership is consumed. -/
def known_subject_identifiers (env : Env) (s : RunState) : KnownIds :=
  let e0 : List (List Char) :=
    if s.subject_email ≠ "" then [pyLower (pyStrip s.subject_email.toList)] else []
  let crmIds : List (List Char) × List (List Char) :=
    match env.crm with
    | some crm =>
      let e := pyLower (pyStrip crm.email.toList)
      let p := pyStrip crm.phone.toList
      (if e ≠ [] then [e] else [], if p ≠ [] then [p] else [])
    | none => ([], [])
  let e2 := pyLower (pyStrip ((s.identity.email.getD "").toList))
  let p2 := pyStrip ((s.identity.phone.getD "").toList)
  { emails := e0 ++ crmIds.1 ++ (if e2 ≠ [] then [e2] else []),
    phones := crmIds.2 ++ (if p2 ≠ [] then [p2] else []) }

/-- Threshold used by verify_identity, with the nested get defaults. -/
def identityThreshold (s : RunState) : ℚ :=
  s.policy.identity.min_confidence_for_auto_approval.getD
    (s.policy.identity.min_confidence.getD (0.85 : ℚ))

/-- Confidence used by verify_identity: the precomputed value when it is
a number, the 0.10 fallback otherwise. -/
def identityConfidence (s : RunState) : ℚ :=
  s.identity.precomputed_confidence.getD (0.10 : ℚ)

/-- GDPRPlan.verify_identity. -/
def verify_identity (_env : Env) (s : RunState) : StepOutcome :=
  let threshold := identityThreshold s
  let confidence := identityConfidence s
  let status := if threshold ≤ confidence then "verified" else "unverified"
  let identity' := { s.identity with confidence := some confidence, status := some status }
  let clars : List Clarification :=
    if status ≠ "verified" then
      let upload := identity'.upload.getD { filename := none, size := none }
      [{ type := "IdentityVerificationClarification",
         payload := .identityVerification threshold upload.filename upload.size }]
    else []
  let s' := logState { s with identity := identity' } "verify_identity"
    (.verifyIdentity identity')
  { success := decide (status = "verified"),
    error := if status = "verified" then none else some "Identity not verified",
    state := s', clarifications := clars }

/-- GDPRPlan.discover_sources. -/
def discover_sources (env : Env) (s : RunState) : StepOutcome :=
  let sources : List Source :=
    [{ name := "gmail_export", path := "data/gmail_export.json" },
     { name := "crm_profile", path := "data/crm_profile.json" },
     { name := "files", path := "data/files" }]
    ++ (if env.gmail_available then
          [{ name := "gmail_live", path := "gmail:label_or_query" }]
        else [])
  { success := true, error := none,
    state := logState s "discover_sources" (.discoverSources sources),
    clarifications := [] }

/-- GDPRPlan.collect_artifacts, with the inline fallbacks of its
try/except blocks. -/
def collect_artifacts (env : Env) (s : RunState) : StepOutcome :=
  let gmailArts : List Artifact :=
    match env.gmail_export with
    | some msgs => msgs.map (fun m =>
        { source := "gmail_export", id := "gmail_" ++ m.id, type := "email",
          content := (m.subject ++ ": " ++ m.body).toList })
    | none => [{ source := "gmail_export", id := "gmail_1", type := "email",
                 content := "Hello Alice, phone +1-555-0101".toList }]
  let crmArts : List Artifact :=
    match env.crm with
    | some crm => [{ source := "crm_profile", id := crm.id.getD "crm_1",
                     type := "profile",
                     content := (crm.name ++ ", " ++ crm.email ++ ", " ++
                       crm.address ++ ", " ++ crm.phone).toList }]
    | none => [{ source := "crm_profile", id := "crm_1", type := "profile",
                 content := "Alice, alice@example.com, 221B Baker Street".toList }]
  let fileArts : List Artifact := env.files.map (fun f =>
    { source := "files", id := basename f.path, type := "file", content := f.content })
  let liveArts : List Artifact :=
    if env.gmail_available then
      env.gmail_live.map (fun m =>
        { source := "gmail_live", id := "gmail_live_" ++ m.id, type := "email",
          content := (m.subject ++ ": " ++ m.snippet).toList })
    else []
  let artifacts := gmailArts ++ crmArts ++ fileArts ++ liveArts
  { success := true, error := none,
    state := logState { s with artifacts := artifacts } "collect_artifacts"
      (.collectArtifacts artifacts.length),
    clarifications := [] }

/-- Third-party classification applied to one raw finding of one
artifact, detect_pii loop body. -/
def classifyFinding (ids : KnownIds) (art : Artifact) (f : RawFinding) : Finding :=
  let is_third : Bool :=
    if f.pii_type = "email" then decide (pyLower (pyStrip f.value) ∉ ids.emails)
    else if f.pii_type = "phone" then decide (pyStrip f.value ∉ ids.phones)
    else false
  { artifact_id := art.id, pii_type := f.pii_type, value := f.value,
    start := (f.start : Int), «end» := (f.stop : Int),
    confidence := f.confidence, third_party := is_third }

/-- GDPRPlan.detect_pii. -/
def detect_pii (env : Env) (s : RunState) : StepOutcome :=
  let ids := known_subject_identifiers env s
  let findings := s.artifacts.flatMap (fun art =>
    (detect art.content).map (classifyFinding ids art))
  let tp_count := (findings.filter (fun f => f.third_party)).length
  { success := true, error := none,
    state := logState { s with pii_findings := findings } "detect_pii"
      (.detectPii findings.length tp_count),
    clarifications := [] }

/-- GDPRPlan.apply_minimization: one proposal per finding, id-stamped in
input order. -/
def apply_minimization (_env : Env) (s : RunState) : StepOutcome :=
  let proposals := s.pii_findings.enum.map (fun idxf =>
    { id := "p" ++ toString idxf.1, artifact_id := idxf.2.artifact_id,
      pii_type := idxf.2.pii_type, value := idxf.2.value,
      masked_preview := mask_value idxf.2.pii_type idxf.2.value,
      start := idxf.2.start, «end» := idxf.2.«end», action := "mask",
      third_party := idxf.2.third_party })
  let tp_count := (proposals.filter (fun p => p.third_party)).length
  { success := true, error := none,
    state := logState { s with redaction_proposals := proposals } "apply_minimization"
      (.applyMinimization proposals.length tp_count),
    clarifications := [] }

/-- sorted(list({...})) on strings: deduplicate, then sort. -/
def sortedDedup (l : List String) : List String :=
  l.dedup.mergeSort (fun a b => a ≤ b)

/-- Insert-or-overwrite into an insertion-ordered mapping (Python dict
assignment). -/
def dictUpsert (acc : List (String × DisclosureValue)) (k : String)
    (v : DisclosureValue) : List (String × DisclosureValue) :=
  if (acc.map Prod.fst).contains k then
    acc.map (fun kv => if kv.1 == k then (k, v) else kv)
  else acc ++ [(k, v)]

/-- GDPRPlan.assemble_disclosure. -/
def assemble_disclosure (_env : Env) (s : RunState) : StepOutcome :=
  let records := s.artifacts.length
  let pii := s.pii_findings.length
  let required := s.policy.disclosure.require_sections
  let pii_categories := sortedDedup (s.pii_findings.map (fun f => f.pii_type))
  let retention_days : Int :=
    match s.policy.sla.access_days with
    | some d => if d = 0 then 30 else d
    | none => 30
  let disclosures := required.foldl (fun acc key =>
    let v : DisclosureValue :=
      if key = "purpose_of_processing" then
        .text ("Respond to your GDPR Data Subject Access Request by collating your personal data, " ++
          "applying data minimization, and delivering a disclosure package for your review.")
      else if key = "categories_of_data" then
        .categories pii_categories (sortedDedup (s.artifacts.map (fun a => a.type)))
      else if key = "recipients" then
        .recipients ["You (data subject)",
          "Internal compliance team (review and approval)",
          "Supervisory authority upon lawful request"]
      else if key = "retention_period" then
        .text ("DSAR artifacts retained for up to " ++ toString retention_days ++
          " days; originals per system policies.")
      else if key = "rights_information" then
        .text ("You have rights to access, rectification, erasure (subject to exemptions), restriction, objection, " ++
          "and data portability. Contact DPO for additional requests.")
      else .text "Provided."
    dictUpsert acc key v) []
  { success := true, error := none,
    state := logState { s with disclosures := disclosures } "assemble_disclosure"
      (.assembleDisclosure records pii (disclosures.map Prod.fst)),
    clarifications := [] }

/-- GDPRPlan.request_compliance_approval. -/
def request_compliance_approval (_env : Env) (s : RunState) : StepOutcome :=
  let tp_count := (s.redaction_proposals.filter (fun p => p.third_party)).length
  let clar : Clarification :=
    { type := "ComplianceApprovalClarification",
      payload := .complianceApproval s.artifacts.length
        (sortedDedup (s.pii_findings.map (fun f => f.pii_type)))
        tp_count s.redaction_proposals "pending" "" }
  { success := true, error := none,
    state := logState s "request_compliance_approval" (.requestComplianceApproval true),
    clarifications := [clar] }

/-! ## finalize_delivery and its pure redaction computation -/

/-- Selected proposal ids: the provided non-empty selection, otherwise
(selection absent, None or empty, by the or-chain) every proposal id. -/
def effectiveSelectedIds (s : RunState) : List String :=
  match s.approvals.selected_proposals with
  | some l => if l = [] then s.redaction_proposals.map (fun p => p.id) else l
  | none => s.redaction_proposals.map (fun p => p.id)

/-- The selected proposals grouped under one artifact id, in proposal
order (by_art of finalize_delivery). -/
def selectedFor (s : RunState) (aid : String) : List Proposal :=
  s.redaction_proposals.filter (fun p =>
    (effectiveSelectedIds s).contains p.id && p.artifact_id == aid)

/-- Original content for an artifact id: the artifact-id-to-text dict is
a comprehension (last duplicate wins) read with a default of empty. -/
def artifactTextFor (s : RunState) (aid : String) : List Char :=
  (((s.artifacts.filter (fun a => a.id == aid)).getLast?).map
    (fun a => a.content)).getD []

/-- Relation ordering proposals by descending start offset. -/
def startDescOrder (p q : Proposal) : Prop := q.start ≤ p.start

instance : DecidableRel startDescOrder := fun p q =>
  inferInstanceAs (Decidable (q.start ≤ p.start))

/-- Python sorted with key start and reverse, a stable descending sort;
insertion sort with the descending relation computes exactly the stable
result. -/
def sortByStartDesc (l : List Proposal) : List Proposal :=
  l.insertionSort startDescOrder

/-- Apply one proposal to a text: replace the span when the offsets are
in range for the current text, otherwise leave the text unchanged. -/
def applyOne (t : List Char) (p : Proposal) : List Char :=
  let masked := mask_value p.pii_type p.value
  if 0 ≤ p.start ∧ p.start ≤ p.«end» ∧ p.«end» ≤ (t.length : Int) then
    t.take p.start.toNat ++ masked ++ t.drop p.«end».toNat
  else t

/-- Apply a group of proposals in descending start order. -/
def applyProposals (plist : List Proposal) (t : List Char) : List Char :=
  (sortByStartDesc plist).foldl applyOne t

/-- Redacted content of one artifact id after finalize_delivery. -/
def redactedTextFor (s : RunState) (aid : String) : List Char :=
  applyProposals (selectedFor s aid) (artifactTextFor s aid)

/-- Keys of a Python dict built by inserting the given keys in order:
first occurrence order, duplicates dropped. -/
def pyDictKeys (l : List String) : List String :=
  l.foldl (fun acc k => if acc.contains k then acc else acc ++ [k]) []

/-- The proposals finalize_delivery treats as selected and applies. -/
def appliedProposals (s : RunState) : List Proposal :=
  s.redaction_proposals.filter (fun p => (effectiveSelectedIds s).contains p.id)

/-- Artifact ids appearing in the redacted-artifacts map: all artifact
ids, then ids introduced by selected proposals aimed at unknown
artifacts. -/
def redactedArtifactIds (s : RunState) : List String :=
  pyDictKeys (s.artifacts.map (fun a => a.id) ++
    (appliedProposals s).map (fun p => p.artifact_id))

/-- The package handed to the archive packager (the zip contents that
the claims concern). -/
structure FinalizePackage where
  redacted_artifacts : List (String × List Char)
  applied_proposals : List Proposal
deriving Repr, DecidableEq

/-- The artifacts_map computation of finalize_delivery. -/
def finalize_package (s : RunState) : FinalizePackage :=
  { redacted_artifacts := (redactedArtifactIds s).map
      (fun aid => (aid, redactedTextFor s aid)),
    applied_proposals := appliedProposals s }

/-- GDPRPlan.finalize_delivery.  The zip write is the external archive
packager; the state effect is the delivery path and the audit entry. -/
def finalize_delivery (env : Env) (s : RunState) : StepOutcome :=
  if complianceDecision s = some "approved" then
    let path := env.cwd ++ "/out/" ++ s.request_id ++ ".zip"
    let s' := { s with delivery := some path }
    { success := true, error := none,
      state := logState s' "finalize_delivery" (.finalizeDelivery true path),
      clarifications := [] }
  else { success := false, error := some "Not approved", state := s, clarifications := [] }

/-! ## Erasure path -/

/-- Whole days from a transaction timestamp to now, Python
timedelta.days (floor division). -/
def deltaDays (env : Env) (ts : Int) : Int :=
  Int.fdiv (env.now - ts) 86400

/-- Parsed timestamp of a transaction, none when the date is missing,
non-string or unparseable. -/
def txnTimestamp (env : Env) (t : Txn) : Option Int :=
  t.date.bind env.parseDate

/-- Loop body of evaluate_legal_basis over one transaction: raise the
financial and active-service retention flags. -/
def txnStep (env : Env) (fin_days svc_days : Int) (acc : Bool × Bool) (t : Txn) :
    Bool × Bool :=
  match txnTimestamp env t with
  | none => acc
  | some ts =>
    let dd := deltaDays env ts
    (acc.1 || (decide (0 < fin_days) && decide (dd < fin_days)),
     acc.2 || (decide (0 < svc_days) &&
       containsSub ("subscription".toList) (pyLower t.product.toList) &&
       decide (dd < svc_days)))

/-- The retention flags of evaluate_legal_basis: the fold of its
transaction loop, starting from both flags down. -/
def legalFlags (env : Env) (s : RunState) : Bool × Bool :=
  (env.transactions.getD []).foldl
    (txnStep env (s.policy.retention_policies.financial_transaction_days.getD 0)
      (s.policy.retention_policies.active_service_days.getD 0)) (false, false)

/-- The triggered reason codes of evaluate_legal_basis, in its append
order. -/
def legalReasons (env : Env) (s : RunState) : List String :=
  (if s.legal.hold then ["legal_hold"] else []) ++
  (if (legalFlags env s).1 then ["retain_financial_records"] else []) ++
  (if (legalFlags env s).2 then ["retain_active_service"] else [])

/-- GDPRPlan.evaluate_legal_basis.  Erasure is allowed when no reason
code was triggered (not reasons). -/
def evaluate_legal_basis (env : Env) (s : RunState) : StepOutcome :=
  let hold := s.legal.hold
  let flags := legalFlags env s
  let reasons := legalReasons env s
  let allow_erasure := reasons.isEmpty
  let legal' := { s.legal with
    hold := hold
    retain_financial_records := flags.1
    retain_active_service := flags.2
    allow_erasure := some allow_erasure }
  { success := true, error := none,
    state := logState { s with legal := legal' } "evaluate_legal_basis"
      (.evaluateLegalBasis hold reasons allow_erasure),
    clarifications := [] }

/-- GDPRPlan.request_legal_approval. -/
def request_legal_approval (_env : Env) (s : RunState) : StepOutcome :=
  let clar : Clarification :=
    { type := "LegalApprovalClarification",
      payload := .legalApproval "erasure"
        (if s.legal.hold then ["legal_hold"] else []) "pending" "" }
  { success := true, error := none,
    state := logState s "request_legal_approval" (.requestLegalApproval true),
    clarifications := [clar] }

/-- GDPRPlan.execute_erasure. -/
def execute_erasure (_env : Env) (s : RunState) : StepOutcome :=
  let deleted := s.artifacts.map (fun a =>
    ({ id := a.id, source := a.source, status := "deleted" } : ErasureRecord))
  { success := true, error := none,
    state := logState { s with erasure := deleted } "execute_erasure"
      (.executeErasure deleted.length),
    clarifications := [] }

/-- GDPRPlan.confirm_completion. -/
def confirm_completion (_env : Env) (s : RunState) : StepOutcome :=
  { success := true, error := none,
    state := logState s "confirm_completion"
      (.confirmCompletion true s.erasure.length),
    clarifications := [] }

/-! ## The step table -/

/-- The workflow step names of GDPRPlan. -/
inductive StepName where
  | verify_identity
  | discover_sources
  | collect_artifacts
  | detect_pii
  | apply_minimization
  | assemble_disclosure
  | request_compliance_approval
  | finalize_delivery
  | evaluate_legal_basis
  | request_legal_approval
  | execute_erasure
  | confirm_completion
deriving Repr, DecidableEq

/-- Dispatch one step invocation. -/
def runStep : StepName → Env → RunState → StepOutcome
  | .verify_identity => verify_identity
  | .discover_sources => discover_sources
  | .collect_artifacts => collect_artifacts
  | .detect_pii => detect_pii
  | .apply_minimization => apply_minimization
  | .assemble_disclosure => assemble_disclosure
  | .request_compliance_approval => request_compliance_approval
  | .finalize_delivery => finalize_delivery
  | .evaluate_legal_basis => evaluate_legal_basis
  | .request_legal_approval => request_legal_approval
  | .execute_erasure => execute_erasure
  | .confirm_completion => confirm_completion

/-! ## Specification-side definitions (for refinement claims) -/

/-- The masking rule as the specification words it: for email, the
first two characters of the local part, the fixed infix and the domain,
with the fallback when the value does not split into exactly two parts
around the at-sign (exactly one at-sign); for phone, the fixed stars and
the last four characters; otherwise the redacted token. -/
def maskValueSpec (pii_type : String) (value : List Char) : List Char :=
  if pii_type = "email" then
    if value.count '@' = 1 then
      (value.takeWhile (fun c => c != '@')).take 2 ++ "***@".toList ++
        ((value.dropWhile (fun c => c != '@')).drop 1)
    else "***".toList
  else if pii_type = "phone" then "***".toList ++ lastFour value
  else "[REDACTED]".toList

/-! ## Lemmas about splitOnChar -/

theorem splitOnChar_not_mem (sep : Char) (v : List Char) (h : sep ∉ v) :
    splitOnChar sep v = [v] := by
  induction v with
  | nil => rfl
  | cons c rest ih =>
    have hc : ¬ c = sep := fun hcs => h (hcs ▸ List.mem_cons_self c rest)
    have hr : sep ∉ rest := fun hm => h (List.mem_cons_of_mem c hm)
    simp only [splitOnChar, ih hr, if_neg hc]

theorem splitOnChar_length (sep : Char) (v : List Char) :
    (splitOnChar sep v).length = v.count sep + 1 := by
  induction v with
  | nil => simp [splitOnChar]
  | cons c rest ih =>
    simp only [splitOnChar]
    rcases hs : splitOnChar sep rest with _ | ⟨h, t⟩
    · rw [hs] at ih; simp at ih
    · rw [hs] at ih
      simp only [List.length_cons] at ih
      dsimp only
      by_cases hc : c = sep
      · subst hc
        rw [if_pos rfl]
        simp only [List.length_cons, List.count_cons]
        simp only [beq_self_eq_true, if_true]
        omega
      · rw [if_neg hc]
        simp only [List.length_cons, List.count_cons]
        have hb : (c == sep) = false := by simp [hc]
        rw [hb]
        simp only [Bool.false_eq_true, if_false]
        omega

theorem splitOnChar_count_one (sep : Char) (v : List Char) (h : v.count sep = 1) :
    splitOnChar sep v =
      [v.takeWhile (fun c => c != sep), (v.dropWhile (fun c => c != sep)).drop 1] := by
  induction v with
  | nil => simp at h
  | cons c rest ih =>
    by_cases hc : c = sep
    · subst hc
      have hz : rest.count c = 0 := by
        rw [List.count_cons] at h
        simpa using h
      have hnm : c ∉ rest := by
        rw [← List.count_pos_iff]
        omega
      simp only [splitOnChar, splitOnChar_not_mem c rest hnm, if_pos rfl]
      simp [List.takeWhile_cons, List.dropWhile_cons]
    · have h1 : rest.count sep = 1 := by
        rw [List.count_cons] at h
        have hb : (c == sep) = false := by simp [hc]
        rw [hb] at h
        simpa using h
      have hrec := ih h1
      simp only [splitOnChar, hrec, if_neg hc]
      have hb : (c != sep) = true := by simp [hc]
      simp [List.takeWhile_cons, List.dropWhile_cons, hb]

theorem mask_value_email_eq (v : List Char) :
    mask_value "email" v =
      (match splitOnChar '@' v with
       | [a, b] => a.take 2 ++ "***@".toList ++ b
       | _ => "***".toList) := rfl

theorem maskValueSpec_email_eq (v : List Char) :
    maskValueSpec "email" v =
      (if v.count '@' = 1 then
        (v.takeWhile (fun c => c != '@')).take 2 ++ "***@".toList ++
          ((v.dropWhile (fun c => c != '@')).drop 1)
      else "***".toList) := rfl

/-- mask_value agrees with the specification wording everywhere. -/
theorem mask_value_eq_maskValueSpec (t : String) (v : List Char) :
    mask_value t v = maskValueSpec t v := by
  by_cases ht : t = "email"
  · subst ht
    rw [mask_value_email_eq, maskValueSpec_email_eq]
    by_cases hc : v.count '@' = 1
    · rw [splitOnChar_count_one '@' v hc, if_pos hc]
    · rw [if_neg hc]
      have hlen := splitOnChar_length '@' v
      cases hs : splitOnChar '@' v with
      | nil => rfl
      | cons a t1 =>
        cases t1 with
        | nil => rfl
        | cons b t2 =>
          cases t2 with
          | nil =>
            exfalso
            rw [hs] at hlen
            simp at hlen
            exact absurd hlen hc
          | cons c2 t3 => rfl
  · by_cases hp : t = "phone" <;> simp [mask_value, maskValueSpec, ht, hp]

/-! ## Lemma about enum -/

theorem enumFrom_get? {α : Type} (n i : Nat) (l : List α) :
    (List.enumFrom n l).get? i = (l.get? i).map (fun a => (n + i, a)) := by
  induction l generalizing n i with
  | nil => simp
  | cons x xs ih =>
    cases i with
    | zero => simp [List.enumFrom]
    | succ k =>
      simp only [List.enumFrom, List.get?_cons_succ, ih (n + 1) k]
      have : n + 1 + k = n + (k + 1) := by omega
      rw [this]

/-! ## Baseline concrete values for witnesses and counterexamples -/

/-- A policy with every optional key absent. -/
def emptyPolicy : Policy :=
  { identity := { min_confidence_for_auto_approval := none, min_confidence := none },
    disclosure := { require_sections := [] },
    redaction := { required_types := [], allow_override_with_justification := false },
    retention_policies := { financial_transaction_days := none, active_service_days := none },
    sla := { access_days := none } }

/-- A freshly created run record with empty collections. -/
def emptyState : RunState :=
  { request_id := "r1", subject_email := "", request_types := [],
    artifacts := [], pii_findings := [], redaction_proposals := [],
    approvals := { compliance := none, legal := none, selected_proposals := none },
    policy := emptyPolicy,
    identity := { status := none, confidence := none, precomputed_confidence := none,
                  email := none, phone := none, upload := none },
    legal := { hold := false, retain_financial_records := false,
               retain_active_service := false, allow_erasure := none },
    audit_log := [], disclosures := [], delivery := none, erasure := [] }

/-- An environment in which every external read fails or is empty. -/
def emptyEnv : Env :=
  { gmail_export := none, crm := none, files := [], gmail_available := false,
    gmail_live := [], transactions := none, now := 0,
    parseDate := fun _ => none, cwd := "/app" }

/-! ## C1: pre-finalize guard, required redactions -/

/-- The unmatched-required-redactions count as the code computes it: a
finding of a required type counts as matched when some selected
proposal of any required type sits at the same artifact-id, start, end
key. -/
def codeUnmatchedRequiredCount (s : RunState) : Nat :=
  ((s.pii_findings.filter (fun f =>
      s.policy.redaction.required_types.contains f.pii_type)).filter (fun f =>
    !((s.redaction_proposals.filter (fun p =>
        (s.approvals.selected_proposals.getD []).contains p.id &&
        s.policy.redaction.required_types.contains p.pii_type)).any (fun p =>
      p.artifact_id == f.artifact_id && p.start == f.start &&
        p.«end» == f.«end»)))).length

/-- The unmatched count as the claim words it: a required finding is
matched only by a selected proposal of the same pii type at the same
artifact-id, start, end key. -/
def specSameTypeUnmatchedCount (s : RunState) : Nat :=
  (s.pii_findings.filter (fun f =>
    s.policy.redaction.required_types.contains f.pii_type &&
    !(s.redaction_proposals.any (fun p =>
      (s.approvals.selected_proposals.getD []).contains p.id &&
      p.pii_type == f.pii_type &&
      p.artifact_id == f.artifact_id && p.start == f.start &&
        p.«end» == f.«end»)))).length

/-- Run record refuting the same-type reading of C1: required types are
email and phone, one email finding, and the single selected proposal at
the same key is a phone proposal. -/
def stateC1 : RunState :=
  { emptyState with
    policy := { emptyPolicy with
      redaction := { required_types := ["email", "phone"],
                     allow_override_with_justification := false } }
    pii_findings := [{ artifact_id := "a1", pii_type := "email",
                       value := "x@y.com".toList, start := 0, «end» := 5,
                       confidence := 1, third_party := false }]
    redaction_proposals := [{ id := "p0", artifact_id := "a1", pii_type := "phone",
                              value := "12345".toList, masked_preview := "***2345".toList,
                              start := 0, «end» := 5, action := "mask",
                              third_party := false }]
    approvals := { compliance := none, legal := none,
                   selected_proposals := some ["p0"] } }

/-- C1 counterexample: under the claim wording the email finding is
unmatched (the selected proposal at its key has a different type) and
no override is enabled, so the claim predicts a denial naming one
missing required redaction; the guard allows. -/
theorem pre_finalize_guard_same_type_counterexample :
    specSameTypeUnmatchedCount stateC1 = 1 ∧
    stateC1.policy.redaction.allow_override_with_justification = false ∧
    stateC1.legal.hold = false ∧
    stateC1.policy.disclosure.require_sections = [] ∧
    pre_finalize_guard stateC1 = { allow := true, reason := none } := by
  decide

/-- C1 (amended): when legal hold is inactive, no required disclosure
section is missing and required redaction types are configured, the
guard allows when every required finding is matched by key to a
selected proposal of some required type; with unmatched required
findings it allows exactly under an enabled override with a non-empty
compliance justification, and otherwise denies naming the unmatched
count. -/
theorem pre_finalize_guard_required_redactions (s : RunState)
    (hhold : s.legal.hold = false)
    (hdisc : s.policy.disclosure.require_sections.filter
      (fun k => !((s.disclosures.map Prod.fst).contains k)) = [])
    (hreq : s.policy.redaction.required_types ≠ []) :
    (codeUnmatchedRequiredCount s = 0 →
      pre_finalize_guard s = { allow := true, reason := none }) ∧
    (0 < codeUnmatchedRequiredCount s →
      pre_finalize_guard s =
        (if s.policy.redaction.allow_override_with_justification = true ∧
            complianceJustification s ≠ "" then
          { allow := true, reason := none }
        else
          { allow := false,
            reason := some ("Missing required redactions: " ++
              toString (codeUnmatchedRequiredCount s)) })) := by
  simp only [pre_finalize_guard, codeUnmatchedRequiredCount]
  rw [hhold]
  rw [if_neg (by simp : ¬ (false = true))]
  rw [hdisc]
  rw [if_neg (by simp : ¬ (([] : List String) ≠ []))]
  rw [if_pos hreq]
  by_cases hrf : s.pii_findings.filter (fun f =>
      s.policy.redaction.required_types.contains f.pii_type) = []
  · rw [hrf]
    rw [if_neg (by simp : ¬ (([] : List Finding) ≠ []))]
    constructor
    · intro _; rfl
    · intro hpos; simp at hpos
  · rw [if_pos hrf]
    constructor
    · intro hz
      rw [if_neg (by omega)]
    · intro hpos
      rw [if_pos (by omega)]

/-- C1 witness: a run record with one phone finding matched by its
selected phone proposal, required type phone, hold inactive and no
required disclosure sections; the guard allows. -/
theorem pre_finalize_guard_required_redactions_witness :
    pre_finalize_guard { emptyState with
      policy := { emptyPolicy with
        redaction := { required_types := ["phone"],
                       allow_override_with_justification := false } }
      pii_findings := [{ artifact_id := "a1", pii_type := "phone",
                         value := "+1-555-0101".toList, start := 19, «end» := 30,
                         confidence := 0.9, third_party := false }]
      redaction_proposals := [{ id := "p0", artifact_id := "a1", pii_type := "phone",
                                value := "+1-555-0101".toList,
                                masked_preview := "***0101".toList,
                                start := 19, «end» := 30, action := "mask",
                                third_party := false }]
      approvals := { compliance := none, legal := none,
                     selected_proposals := some ["p0"] } } =
      { allow := true, reason := none } := by
  exact (pre_finalize_guard_required_redactions _ (by decide) (by decide)
    (by decide)).1 (by decide)

/-! ## C2: pre-erasure guard -/

/-- C2: the pre-erasure guard denies with the legal-hold reason
whenever legal hold is set, regardless of the legal approval; otherwise
denies with the missing-approval reason when the legal decision is not
approved; otherwise, when allow_erasure is the recorded value false,
denies with the most specific reason in priority order, financial
retention first, then active service, then the generic reason; and
otherwise allows. -/
theorem pre_erasure_guard_spec (s : RunState) :
    (s.legal.hold = true → pre_erasure_guard s = ⟨false, some "Legal hold active"⟩) ∧
    (s.legal.hold = false → legalDecision s ≠ some "approved" →
      pre_erasure_guard s = ⟨false, some "Legal approval missing"⟩) ∧
    (s.legal.hold = false → legalDecision s = some "approved" →
      s.legal.allow_erasure = some false →
      pre_erasure_guard s = ⟨false, some
        (if s.legal.retain_financial_records = true then
          "Data retained for financial regulations"
         else if s.legal.retain_active_service = true then
          "Data retained for active service contract"
         else "Legal basis not met")⟩) ∧
    (s.legal.hold = false → legalDecision s = some "approved" →
      s.legal.allow_erasure ≠ some false →
      pre_erasure_guard s = ⟨true, none⟩) := by
  refine ⟨?_, ?_, ?_, ?_⟩
  · intro h1
    simp [pre_erasure_guard, h1]
  · intro h1 h2
    simp [pre_erasure_guard, h1, h2]
  · intro h1 h2 h3
    unfold pre_erasure_guard
    rw [h1]
    rw [if_neg (by simp : ¬ (false = true))]
    rw [h2]
    rw [if_neg (by simp : ¬ (some "approved" ≠ some "approved"))]
    rw [h3]
    rw [if_pos rfl]
    split_ifs <;> rfl
  · intro h1 h2 h3
    simp [pre_erasure_guard, h1, h2, h3]

/-- C2 witness: with legal hold set and an approved legal decision the
guard still denies with the legal-hold reason. -/
theorem pre_erasure_guard_spec_witness :
    pre_erasure_guard { emptyState with
      legal := { hold := true, retain_financial_records := false,
                 retain_active_service := false, allow_erasure := none }
      approvals := { compliance := none,
                     legal := some { decision := some "approved" },
                     selected_proposals := none } } =
      ⟨false, some "Legal hold active"⟩ :=
  (pre_erasure_guard_spec _).1 (by decide)

/-! ## C4: masking and proposal building -/

/-- C4: mask_value agrees everywhere with the specification wording
(first two local characters plus domain for email with the fallback,
stars plus last four characters for phone, the redacted token
otherwise), matches the three specification examples, and
apply_minimization emits exactly one proposal per finding, id-stamped
in input order, with the masked preview and the copied offsets. -/
theorem mask_and_minimization_spec :
    (∀ (t : String) (v : List Char), mask_value t v = maskValueSpec t v) ∧
    mask_value "email" "al@example.com".toList = "al***@example.com".toList ∧
    mask_value "phone" "+1-555-0101".toList = "***0101".toList ∧
    mask_value "address" "x".toList = "[REDACTED]".toList ∧
    (∀ (env : Env) (s : RunState) (i : Nat),
      ((apply_minimization env s).state.redaction_proposals).get? i =
        (s.pii_findings.get? i).map (fun f =>
          { id := "p" ++ toString i, artifact_id := f.artifact_id,
            pii_type := f.pii_type, value := f.value,
            masked_preview := mask_value f.pii_type f.value,
            start := f.start, «end» := f.«end», action := "mask",
            third_party := f.third_party })) ∧
    (∀ (env : Env) (s : RunState),
      ((apply_minimization env s).state.redaction_proposals).length =
        s.pii_findings.length) := by
  refine ⟨mask_value_eq_maskValueSpec, by decide, by decide, by decide, ?_, ?_⟩
  · intro env s i
    simp only [apply_minimization, logState]
    rw [List.get?_map, List.enum, enumFrom_get?]
    cases s.pii_findings.get? i <;> simp
  · intro env s
    simp [apply_minimization, logState]

/-! ## C3, C7, C10: finalize_delivery -/

/-- One phone proposal over a known span, used by concrete witnesses. -/
def propC3 : Proposal :=
  { id := "p0", artifact_id := "a1", pii_type := "phone",
    value := "+1-555-0101".toList, masked_preview := "***0101".toList,
    start := 5, «end» := 16, action := "mask", third_party := true }

/-- An approved run record with one artifact and its selected phone
proposal. -/
def stateC3 : RunState :=
  { emptyState with
    artifacts := [{ source := "gmail_export", id := "a1", type := "email",
                    content := "Call +1-555-0101 now".toList }]
    redaction_proposals := [propC3]
    approvals := { compliance := some { decision := some "approved", justification := "" },
                   legal := none, selected_proposals := some ["p0"] } }

/-- An out-of-range proposal (negative start). -/
def propC7bad : Proposal :=
  { id := "p1", artifact_id := "a1", pii_type := "phone", value := "x".toList,
    masked_preview := "***".toList, start := -1, «end» := 2, action := "mask",
    third_party := false }

instance : IsTotal Proposal startDescOrder :=
  ⟨fun p q => le_total q.start p.start⟩

instance : IsTrans Proposal startDescOrder :=
  ⟨fun _ _ _ hab hbc => le_trans hbc hab⟩

/-- C3: finalize_delivery fails with the not-approved error and leaves
the run record (delivery included) unchanged whenever the compliance
decision is not approved; when approved it succeeds, sets the delivery
path, and a selected in-range proposal that is the only selected
proposal for its artifact has its span replaced by its masked text in
the redacted content. -/
theorem finalize_delivery_spec (env : Env) (s : RunState) :
    (complianceDecision s ≠ some "approved" →
      (finalize_delivery env s).success = false ∧
      (finalize_delivery env s).error = some "Not approved" ∧
      (finalize_delivery env s).state = s) ∧
    (complianceDecision s = some "approved" →
      (finalize_delivery env s).success = true ∧
      (finalize_delivery env s).state.delivery =
        some (env.cwd ++ "/out/" ++ s.request_id ++ ".zip") ∧
      (∀ p ∈ s.redaction_proposals,
        selectedFor s p.artifact_id = [p] →
        0 ≤ p.start → p.start ≤ p.«end» →
        p.«end» ≤ ((artifactTextFor s p.artifact_id).length : Int) →
        redactedTextFor s p.artifact_id =
          (artifactTextFor s p.artifact_id).take p.start.toNat ++
            mask_value p.pii_type p.value ++
            (artifactTextFor s p.artifact_id).drop p.«end».toNat)) := by
  constructor
  · intro h
    simp [finalize_delivery, h]
  · intro h
    refine ⟨by simp [finalize_delivery, h], by simp [finalize_delivery, h, logState], ?_⟩
    intro p _ hsel h0 h1 h2
    unfold redactedTextFor applyProposals
    rw [hsel]
    show applyOne (artifactTextFor s p.artifact_id) p = _
    unfold applyOne
    rw [if_pos ⟨h0, h1, h2⟩]

/-- C3 witness: an approved record with one selected phone proposal;
finalize succeeds, the delivery path is set, and the span is replaced
by the masked preview in the redacted content. -/
theorem finalize_delivery_spec_witness :
    (finalize_delivery emptyEnv stateC3).success = true ∧
    (finalize_delivery emptyEnv stateC3).state.delivery = some "/app/out/r1.zip" ∧
    redactedTextFor stateC3 "a1" = "Call ***0101 now".toList := by
  have h := (finalize_delivery_spec emptyEnv stateC3).2 (by decide)
  refine ⟨h.1, by rw [h.2.1]; rfl, ?_⟩
  have hr := h.2.2 propC3 (by decide) (by decide) (by decide) (by decide) (by decide)
  have hid : redactedTextFor stateC3 "a1" = redactedTextFor stateC3 propC3.artifact_id := rfl
  rw [hid, hr]
  decide

/-- C7: for every artifact the selected proposals are applied in
descending start order (the applied sequence is sorted descending by
start and is a permutation of the selected group); an out-of-range
proposal leaves the text unchanged (dropped, not applied); and an
application never changes the text below a position at or before its
start, so applying in descending order cannot invalidate the offsets of
proposals applied later. -/
theorem finalize_apply_order_spec (s : RunState) (aid : String) :
    redactedTextFor s aid =
      (sortByStartDesc (selectedFor s aid)).foldl applyOne (artifactTextFor s aid) ∧
    List.Sorted startDescOrder (sortByStartDesc (selectedFor s aid)) ∧
    (sortByStartDesc (selectedFor s aid)).Perm (selectedFor s aid) ∧
    (∀ (t : List Char) (p : Proposal),
      ¬ (0 ≤ p.start ∧ p.start ≤ p.«end» ∧ p.«end» ≤ (t.length : Int)) →
      applyOne t p = t) ∧
    (∀ (t : List Char) (p : Proposal) (n : Nat),
      (n : Int) ≤ p.start → (applyOne t p).take n = t.take n) := by
  refine ⟨rfl, List.sorted_insertionSort startDescOrder _,
    List.perm_insertionSort startDescOrder _, ?_, ?_⟩
  · intro t p h
    unfold applyOne
    rw [if_neg h]
  · intro t p n hn
    unfold applyOne
    by_cases h : 0 ≤ p.start ∧ p.start ≤ p.«end» ∧ p.«end» ≤ (t.length : Int)
    · rw [if_pos h]
      have hns : n ≤ p.start.toNat := by omega
      have hlen : n ≤ (t.take p.start.toNat).length := by
        simp only [List.length_take]
        omega
      rw [List.append_assoc, List.take_append_of_le_length hlen, List.take_take,
        min_eq_left hns]
    · rw [if_neg h]

/-- C7 witness: applying the two selected proposals of a concrete
record yields the sorted descending order, drops an out-of-range
proposal, and preserves the prefix below the start. -/
theorem finalize_apply_order_spec_witness :
    List.Sorted startDescOrder (sortByStartDesc (selectedFor stateC3 "a1")) ∧
    applyOne "abc".toList propC7bad = "abc".toList ∧
    (applyOne "Call +1-555-0101 now".toList propC3).take 5 =
      ("Call +1-555-0101 now".toList).take 5 := by
  refine ⟨(finalize_apply_order_spec stateC3 "a1").2.1, ?_, ?_⟩
  · exact (finalize_apply_order_spec stateC3 "a1").2.2.2.1 _ propC7bad (by decide)
  · exact (finalize_apply_order_spec stateC3 "a1").2.2.2.2 _ propC3 5 (by decide)

/-- C10: with the compliance decision approved and the selected set
absent or empty, finalize treats every proposal as selected: the
effective id set is every proposal id, the applied proposals are all of
them, and each artifact receives all proposals aimed at it. -/
theorem finalize_selected_default_spec (s : RunState)
    (_happroved : complianceDecision s = some "approved")
    (h : s.approvals.selected_proposals = none ∨
      s.approvals.selected_proposals = some []) :
    effectiveSelectedIds s = s.redaction_proposals.map (fun p => p.id) ∧
    appliedProposals s = s.redaction_proposals ∧
    (∀ aid, selectedFor s aid =
      s.redaction_proposals.filter (fun p => p.artifact_id == aid)) := by
  have hids : effectiveSelectedIds s = s.redaction_proposals.map (fun p => p.id) := by
    rcases h with h | h <;> simp [effectiveSelectedIds, h]
  have hcont : ∀ p ∈ s.redaction_proposals,
      (s.redaction_proposals.map (fun q => q.id)).contains p.id = true := by
    intro p hp
    exact List.elem_eq_true_of_mem (List.mem_map_of_mem (fun q => q.id) hp)
  refine ⟨hids, ?_, ?_⟩
  · unfold appliedProposals
    rw [hids]
    exact List.filter_eq_self.mpr hcont
  · intro aid
    unfold selectedFor
    rw [hids]
    apply List.filter_congr
    intro p hp
    rw [hcont p hp, Bool.true_and]

/-- The approved record with no recorded selection. -/
def stateC10 : RunState :=
  { stateC3 with
    approvals := { compliance := some { decision := some "approved", justification := "" },
                   legal := none, selected_proposals := none } }

/-- C10 witness: with no selected set recorded and an approved
decision, every proposal id is effective and all proposals are
applied. -/
theorem finalize_selected_default_spec_witness :
    effectiveSelectedIds stateC10 = ["p0"] ∧
    appliedProposals stateC10 = stateC10.redaction_proposals := by
  have h := finalize_selected_default_spec stateC10 (by decide) (Or.inl rfl)
  refine ⟨?_, h.2.1⟩
  rw [h.1]
  decide

/-! ## C6: legal basis evaluation -/

/-- One transaction triggers financial retention: parseable date and
age below a positive financial threshold. -/
def finPredB (env : Env) (fin_days : Int) (t : Txn) : Bool :=
  match txnTimestamp env t with
  | none => false
  | some ts => decide (0 < fin_days) && decide (deltaDays env ts < fin_days)

/-- One transaction triggers active-service retention: parseable date,
subscription product, age below a positive active threshold. -/
def svcPredB (env : Env) (svc_days : Int) (t : Txn) : Bool :=
  match txnTimestamp env t with
  | none => false
  | some ts => decide (0 < svc_days) &&
      containsSub ("subscription".toList) (pyLower t.product.toList) &&
      decide (deltaDays env ts < svc_days)

theorem txnFold_spec (env : Env) (fd sd : Int) (txns : List Txn) (acc : Bool × Bool) :
    txns.foldl (txnStep env fd sd) acc =
      (acc.1 || txns.any (finPredB env fd), acc.2 || txns.any (svcPredB env sd)) := by
  induction txns generalizing acc with
  | nil => simp
  | cons t ts ih =>
    rw [List.foldl_cons, ih]
    cases h : txnTimestamp env t <;>
      simp [txnStep, finPredB, svcPredB, h, Bool.or_assoc]

theorem finPredB_iff (env : Env) (fd : Int) (t : Txn) :
    finPredB env fd t = true ↔
      (0 < fd ∧ ∃ ts, txnTimestamp env t = some ts ∧ deltaDays env ts < fd) := by
  unfold finPredB
  cases h : txnTimestamp env t <;> simp [h]

theorem svcPredB_iff (env : Env) (sd : Int) (t : Txn) :
    svcPredB env sd t = true ↔
      (0 < sd ∧ containsSub ("subscription".toList) (pyLower t.product.toList) = true ∧
        ∃ ts, txnTimestamp env t = some ts ∧ deltaDays env ts < sd) := by
  unfold svcPredB
  cases h : txnTimestamp env t <;> simp [h, and_assoc]

theorem reasons_isEmpty (h f a : Bool) :
    ((if h then ["legal_hold"] else []) ++
      (if f then ["retain_financial_records"] else []) ++
      (if a then ["retain_active_service"] else [])).isEmpty = (!(h || f || a)) := by
  cases h <;> cases f <;> cases a <;> rfl

/-- C6 (amended): the financial flag is set exactly when the financial
threshold is positive and some parseable transaction is younger than
it; the active-service flag exactly when the active threshold is
positive and some parseable subscription transaction is younger than
it (unparseable dates are skipped, never fatal); allow_erasure records
the negation of hold-or-either-flag; and the audit entry enumerates
the triggered reason codes in order. -/
theorem evaluate_legal_basis_spec (env : Env) (s : RunState) :
    ((evaluate_legal_basis env s).state.legal.retain_financial_records = true ↔
      (0 < s.policy.retention_policies.financial_transaction_days.getD 0 ∧
        ∃ t ∈ env.transactions.getD [], ∃ ts, txnTimestamp env t = some ts ∧
          deltaDays env ts <
            s.policy.retention_policies.financial_transaction_days.getD 0)) ∧
    ((evaluate_legal_basis env s).state.legal.retain_active_service = true ↔
      (0 < s.policy.retention_policies.active_service_days.getD 0 ∧
        ∃ t ∈ env.transactions.getD [],
          containsSub ("subscription".toList) (pyLower t.product.toList) = true ∧
          ∃ ts, txnTimestamp env t = some ts ∧
            deltaDays env ts <
              s.policy.retention_policies.active_service_days.getD 0)) ∧
    ((evaluate_legal_basis env s).state.legal.allow_erasure =
      some (!(s.legal.hold ||
        (evaluate_legal_basis env s).state.legal.retain_financial_records ||
        (evaluate_legal_basis env s).state.legal.retain_active_service))) ∧
    (legalReasons env s =
      (if s.legal.hold then ["legal_hold"] else []) ++
      (if (evaluate_legal_basis env s).state.legal.retain_financial_records then
        ["retain_financial_records"] else []) ++
      (if (evaluate_legal_basis env s).state.legal.retain_active_service then
        ["retain_active_service"] else [])) ∧
    ((evaluate_legal_basis env s).state.audit_log =
      s.audit_log ++ [{ step := "evaluate_legal_basis"
                        detail := .evaluateLegalBasis s.legal.hold (legalReasons env s)
                          (!(s.legal.hold ||
                            (evaluate_legal_basis env s).state.legal.retain_financial_records ||
                            (evaluate_legal_basis env s).state.legal.retain_active_service)) }]) := by
  have halw : (legalReasons env s).isEmpty =
      (!(s.legal.hold || (legalFlags env s).1 || (legalFlags env s).2)) := by
    unfold legalReasons
    exact reasons_isEmpty _ _ _
  have hfin : (evaluate_legal_basis env s).state.legal.retain_financial_records =
      (env.transactions.getD []).any
        (finPredB env (s.policy.retention_policies.financial_transaction_days.getD 0)) := by
    show (legalFlags env s).1 = _
    unfold legalFlags
    rw [txnFold_spec]
    simp
  have hact : (evaluate_legal_basis env s).state.legal.retain_active_service =
      (env.transactions.getD []).any
        (svcPredB env (s.policy.retention_policies.active_service_days.getD 0)) := by
    show (legalFlags env s).2 = _
    unfold legalFlags
    rw [txnFold_spec]
    simp
  refine ⟨?_, ?_, ?_, rfl, ?_⟩
  · rw [hfin, List.any_eq_true]
    constructor
    · rintro ⟨t, ht, hp⟩
      obtain ⟨h1, ts, h2, h3⟩ := (finPredB_iff env _ t).mp hp
      exact ⟨h1, t, ht, ts, h2, h3⟩
    · rintro ⟨h1, t, ht, ts, h2, h3⟩
      exact ⟨t, ht, (finPredB_iff env _ t).mpr ⟨h1, ts, h2, h3⟩⟩
  · rw [hact, List.any_eq_true]
    constructor
    · rintro ⟨t, ht, hp⟩
      obtain ⟨h1, hsub, ts, h2, h3⟩ := (svcPredB_iff env _ t).mp hp
      exact ⟨h1, t, ht, hsub, ts, h2, h3⟩
    · rintro ⟨h1, t, ht, hsub, ts, h2, h3⟩
      exact ⟨t, ht, (svcPredB_iff env _ t).mpr ⟨h1, hsub, ts, h2, h3⟩⟩
  · show some (legalReasons env s).isEmpty = _
    rw [halw]
    rfl
  · show s.audit_log ++ [{ step := "evaluate_legal_basis"
                           detail := .evaluateLegalBasis s.legal.hold (legalReasons env s)
                             (legalReasons env s).isEmpty }] = _
    rw [halw]
    rfl

/-- Environment of the C6 counterexample: one future-dated subscription
transaction, a parser recognising its date, the clock at zero. -/
def envC6 : Env :=
  { emptyEnv with
    transactions := some [{ date := some "2026-01-02T00:00:00Z",
                            product := "Subscription plan" }]
    parseDate := fun d => if d = "2026-01-02T00:00:00Z" then some 86400 else none
    now := 0 }

/-- Run record of the C6 counterexample: active_service_days zero. -/
def stateC6 : RunState :=
  { emptyState with
    policy := { emptyPolicy with
      retention_policies := { financial_transaction_days := none,
                              active_service_days := some 0 } } }

/-- C6 counterexample: a parseable subscription transaction with age
below the configured active_service_days (zero) satisfies the claimed
condition, yet the code leaves the active-service flag false because it
additionally requires a positive threshold. -/
theorem evaluate_legal_basis_counterexample :
    (∃ t ∈ envC6.transactions.getD [],
      containsSub ("subscription".toList) (pyLower t.product.toList) = true ∧
      ∃ ts, txnTimestamp envC6 t = some ts ∧
        deltaDays envC6 ts <
          stateC6.policy.retention_policies.active_service_days.getD 0) ∧
    (evaluate_legal_basis envC6 stateC6).state.legal.retain_active_service = false := by
  constructor
  · refine ⟨{ date := some "2026-01-02T00:00:00Z", product := "Subscription plan" },
      by decide, by decide, 86400, by decide, by decide⟩
  · decide

/-! ## C8: identity verification -/

/-- C8: after verify_identity the recorded confidence is the computed
confidence, the status is verified exactly when the confidence reaches
the threshold, a not-verified invocation records exactly one
IdentityVerificationClarification, and a verified one records none. -/
theorem verify_identity_spec (env : Env) (s : RunState) :
    ((verify_identity env s).state.identity.status = some "verified" ↔
      identityThreshold s ≤ identityConfidence s) ∧
    ((verify_identity env s).state.identity.confidence =
      some (identityConfidence s)) ∧
    ((verify_identity env s).state.identity.status ≠ some "verified" →
      ((verify_identity env s).clarifications.filter
        (fun c => c.type == "IdentityVerificationClarification")).length = 1) ∧
    ((verify_identity env s).state.identity.status = some "verified" →
      (verify_identity env s).clarifications = []) := by
  by_cases h : identityThreshold s ≤ identityConfidence s <;>
    simp [verify_identity, logState, h]

/-- C8 witness: the fresh record has fallback confidence 0.10 below the
default threshold 0.85: not verified, and exactly one identity
clarification is recorded. -/
theorem verify_identity_spec_witness :
    ((verify_identity emptyEnv emptyState).clarifications.filter
      (fun c => c.type == "IdentityVerificationClarification")).length = 1 := by
  have hle : ¬ (identityThreshold emptyState ≤ identityConfidence emptyState) := by
    simp only [identityThreshold, identityConfidence, emptyState, emptyPolicy,
      Option.getD_none]
    norm_num
  exact (verify_identity_spec emptyEnv emptyState).2.2.1
    (fun hst => hle ((verify_identity_spec emptyEnv emptyState).1.mp hst))

/-! ## C9: the audit log is append-only -/

/-- C9 (amended): every step invocation leaves the existing audit
entries unchanged in content and position and appends exactly one new
entry, except finalize_delivery invoked without an approved compliance
decision, which appends none. -/
theorem audit_append_only (step : StepName) (env : Env) (s : RunState) :
    ((runStep step env s).state.audit_log.take s.audit_log.length = s.audit_log) ∧
    ((runStep step env s).state.audit_log.length = s.audit_log.length + 1 ∨
      (step = StepName.finalize_delivery ∧ complianceDecision s ≠ some "approved" ∧
        (runStep step env s).state.audit_log = s.audit_log)) := by
  have htake : ∀ (l : List AuditEntry) (e : AuditEntry),
      (l ++ [e]).take l.length = l := by
    intro l e
    simp
  cases step
  case finalize_delivery =>
    by_cases hd : complianceDecision s = some "approved"
    · refine ⟨?_, Or.inl ?_⟩ <;>
        simp [runStep, finalize_delivery, logState, hd, htake]
    · refine ⟨?_, Or.inr ⟨rfl, hd, ?_⟩⟩ <;>
        simp [runStep, finalize_delivery, logState, hd]
  all_goals
    refine ⟨?_, Or.inl ?_⟩ <;>
      simp [runStep, verify_identity, discover_sources, collect_artifacts,
        detect_pii, apply_minimization, assemble_disclosure,
        request_compliance_approval, evaluate_legal_basis,
        request_legal_approval, execute_erasure, confirm_completion,
        logState, htake]

/-- C9 counterexample: finalize_delivery invoked on a record without an
approved compliance decision appends no audit entry, so the audit log
does not grow by one on that step invocation. -/
theorem audit_append_only_counterexample :
    ¬ ((runStep StepName.finalize_delivery emptyEnv emptyState).state.audit_log.length =
        emptyState.audit_log.length + 1) := by
  decide

/-! ## C5: third-party classification of detected findings

The phone regex anchors its match on an optional plus sign and a digit
and ends on a digit, so a detected phone value carries no surrounding
whitespace and the strip the classifier applies is the identity; this
is what lets the claim speak of the raw phone value. -/

theorem scanFrom_mem (matchAt : List Char → Nat → Option Nat) (text : List Char) :
    ∀ (fuel i : Nat) (pr : Nat × Nat), pr ∈ scanFrom matchAt text fuel i →
      matchAt text pr.1 = some pr.2 := by
  intro fuel
  induction fuel with
  | zero =>
    intro i pr h
    simp [scanFrom] at h
  | succ n ih =>
    intro i pr h
    rw [scanFrom] at h
    split at h
    · rcases hm : matchAt text i with _ | e <;> rw [hm] at h
      · exact ih _ pr h
      · rcases List.mem_cons.mp h with heq | hmem
        · subst heq; exact hm
        · exact ih _ pr hmem
    · simp at h

theorem searchDown_some (p : Nat → Bool) :
    ∀ (n m : Nat), searchDown p n = some m → p m = true := by
  intro n
  induction n with
  | zero =>
    intro m h
    unfold searchDown at h
    split at h
    · injection h with h'
      subst h'
      assumption
    · exact absurd h (by simp)
  | succ k ih =>
    intro m h
    unfold searchDown at h
    split at h
    · injection h with h'
      subst h'
      assumption
    · exact ih m h

theorem matchPhoneAt_ends (text : List Char) (i e : Nat)
    (h : matchPhoneAt text i = some e) :
    i < e ∧
    (∃ c, text.get? i = some c ∧ (c = '+' ∨ c.isDigit = true)) ∧
    (∃ d, text.get? (e - 1) = some d ∧ d.isDigit = true) := by
  simp only [matchPhoneAt] at h
  by_cases hplus : text.get? i = some '+'
  · rw [if_pos hplus] at h
    rcases hc : text.get? (i + 1) with _ | c <;> rw [hc] at h <;> dsimp only at h
    · exact absurd h (by simp)
    · rcases hdig : c.isDigit with _ | _
      · rw [hdig] at h
        simp only [Bool.false_eq_true, if_false] at h
        exact absurd h (by simp)
      · rw [hdig, if_pos rfl] at h
        rcases hm : searchDown (fun m => decide (7 ≤ m) &&
            Option.any Char.isDigit (text.get? (i + 1 + 1 + m)))
            (classRun isPhoneClassChar text (i + 1 + 1)) with _ | m <;>
          rw [hm] at h <;> dsimp only at h
        · exact absurd h (by simp)
        · injection h with h'
          have hp := searchDown_some _ _ _ hm
          simp only [Bool.and_eq_true, decide_eq_true_eq] at hp
          obtain ⟨_, hp2⟩ := hp
          rcases hox : text.get? (i + 1 + 1 + m) with _ | d <;> rw [hox] at hp2
          · exact absurd hp2 (by simp [Option.any])
          · have hdd : d.isDigit = true := by simpa [Option.any] using hp2
            subst h'
            refine ⟨by omega, ⟨'+', hplus, Or.inl rfl⟩, d, ?_, hdd⟩
            have harith : i + 1 + 1 + m + 1 - 1 = i + 1 + 1 + m := by omega
            rw [harith]
            exact hox
  · rw [if_neg hplus] at h
    rcases hc : text.get? i with _ | c <;> rw [hc] at h <;> dsimp only at h
    · exact absurd h (by simp)
    · rcases hdig : c.isDigit with _ | _
      · rw [hdig] at h
        simp only [Bool.false_eq_true, if_false] at h
        exact absurd h (by simp)
      · rw [hdig, if_pos rfl] at h
        rcases hm : searchDown (fun m => decide (7 ≤ m) &&
            Option.any Char.isDigit (text.get? (i + 1 + m)))
            (classRun isPhoneClassChar text (i + 1)) with _ | m <;>
          rw [hm] at h <;> dsimp only at h
        · exact absurd h (by simp)
        · injection h with h'
          have hp := searchDown_some _ _ _ hm
          simp only [Bool.and_eq_true, decide_eq_true_eq] at hp
          obtain ⟨_, hp2⟩ := hp
          rcases hox : text.get? (i + 1 + m) with _ | d <;> rw [hox] at hp2
          · exact absurd hp2 (by simp [Option.any])
          · have hdd : d.isDigit = true := by simpa [Option.any] using hp2
            subst h'
            refine ⟨by omega, ⟨c, rfl, Or.inr hdig⟩, d, ?_, hdd⟩
            have harith : i + 1 + m + 1 - 1 = i + 1 + m := by omega
            rw [harith]
            exact hox

theorem pyStripLeft_eq_self (l : List Char)
    (h : ∀ c, l.head? = some c → isPyWhitespace c = false) :
    pyStripLeft l = l := by
  cases l with
  | nil => rfl
  | cons c t =>
    unfold pyStripLeft
    rw [List.dropWhile_cons, h c rfl]
    simp

theorem pyStripRight_eq_self (l : List Char)
    (h : ∀ c, l.getLast? = some c → isPyWhitespace c = false) :
    pyStripRight l = l := by
  unfold pyStripRight
  cases hr : l.reverse with
  | nil =>
    rw [List.dropWhile_nil]
    rw [← hr, List.reverse_reverse]
  | cons c t =>
    have hc : l.getLast? = some c := by
      rw [← List.head?_reverse, hr]
      rfl
    rw [List.dropWhile_cons, h c hc]
    simp only [Bool.false_eq_true, if_false]
    rw [← hr, List.reverse_reverse]

theorem pyStrip_eq_self (l : List Char)
    (h1 : ∀ c, l.head? = some c → isPyWhitespace c = false)
    (h2 : ∀ c, l.getLast? = some c → isPyWhitespace c = false) :
    pyStrip l = l := by
  unfold pyStrip
  rw [pyStripLeft_eq_self l h1, pyStripRight_eq_self l h2]

theorem not_ws_of_isDigit (c : Char) (h : c.isDigit = true) :
    isPyWhitespace c = false := by
  cases hb : isPyWhitespace c
  · rfl
  · exfalso
    simp only [isPyWhitespace, Bool.or_eq_true, decide_eq_true_eq] at hb
    obtain ((((h1 | h1) | h1) | h1) | h1) | h1 := hb <;>
      (subst h1; exact absurd h (by decide))

theorem lt_length_of_get?_eq_some {α : Type} (l : List α) (n : Nat) (a : α)
    (h : l.get? n = some a) : n < l.length := by
  by_contra hge
  rw [List.get?_eq_none.mpr (by omega)] at h
  exact absurd h (by simp)

theorem head?_take {α : Type} (l : List α) (n : Nat) (hn : 0 < n) :
    (l.take n).head? = l.head? := by
  cases l <;> cases n <;> simp_all [List.take]

theorem head?_drop {α : Type} (l : List α) (i : Nat) :
    (l.drop i).head? = l.get? i := by
  induction l generalizing i with
  | nil => simp
  | cons a t ih =>
    cases i with
    | zero => rfl
    | succ k => simp [ih k]

theorem getLast?_eq_get? {α : Type} (l : List α) :
    l.getLast? = l.get? (l.length - 1) := by
  induction l with
  | nil => rfl
  | cons a t ih =>
    cases t with
    | nil => rfl
    | cons b t2 =>
      rw [List.getLast?_cons_cons, ih]
      have harith : (a :: b :: t2).length - 1 = (b :: t2).length - 1 + 1 := by
        simp
      rw [harith, List.get?_cons_succ]

theorem phone_value_strip_invariant (text : List Char) (i e : Nat)
    (h : matchPhoneAt text i = some e) :
    pyStrip (slice text i e) = slice text i e := by
  obtain ⟨hie, ⟨c, hc, hcw⟩, d, hd, hdd⟩ := matchPhoneAt_ends text i e h
  have hil : i < text.length := lt_length_of_get?_eq_some text i c hc
  have hel : e ≤ text.length := by
    have := lt_length_of_get?_eq_some text (e - 1) d hd
    omega
  have hlen : (slice text i e).length = e - i := by
    unfold slice
    rw [List.length_take, List.length_drop]
    omega
  have hhead : (slice text i e).head? = some c := by
    unfold slice
    rw [head?_take _ _ (by omega), head?_drop]
    exact hc
  have hlast : (slice text i e).getLast? = some d := by
    rw [getLast?_eq_get?, hlen]
    unfold slice
    rw [List.get?_take (by omega : e - i - 1 < e - i), List.get?_drop]
    have harith : i + (e - i - 1) = e - 1 := by omega
    rw [harith]
    exact hd
  apply pyStrip_eq_self
  · intro c' hc'
    rw [hhead] at hc'
    injection hc' with hc''
    subst hc''
    rcases hcw with rfl | hdig
    · decide
    · exact not_ws_of_isDigit _ hdig
  · intro d' hd'
    rw [hlast] at hd'
    injection hd' with hd''
    subst hd''
    exact not_ws_of_isDigit _ hdd

/-- Every finding the tool emits is an email, a phone whose value the
strip normalisation leaves unchanged, or the address-context marker. -/
theorem detect_types (text : List Char) (f : RawFinding) (hf : f ∈ detect text) :
    f.pii_type = "email" ∨
    (f.pii_type = "phone" ∧ pyStrip f.value = f.value) ∨
    f.pii_type = "address" := by
  unfold detect at hf
  rcases List.mem_append.mp hf with hf1 | hf2
  · rcases List.mem_append.mp hf1 with he | hp
    · left
      obtain ⟨me, _, rfl⟩ := List.mem_map.mp he
      rfl
    · right; left
      obtain ⟨mp, hmp, rfl⟩ := List.mem_map.mp hp
      refine ⟨rfl, ?_⟩
      exact phone_value_strip_invariant text mp.1 mp.2
        (scanFrom_mem matchPhoneAt text _ _ mp hmp)
  · right; right
    split at hf2
    · obtain rfl := List.mem_singleton.mp hf2
      rfl
    · simp at hf2

/-- C5: a finding emitted by detect_pii is third-party exactly when it
is an email whose strip-and-lower normalised value is outside the
subject email set, or a phone whose raw value is outside the subject
phone set; findings of any other type are never third-party. -/
theorem detect_pii_third_party (env : Env) (s : RunState) (f : Finding)
    (hf : f ∈ (detect_pii env s).state.pii_findings) :
    f.third_party = true ↔
      ((f.pii_type = "email" ∧
         pyLower (pyStrip f.value) ∉ (known_subject_identifiers env s).emails) ∨
       (f.pii_type = "phone" ∧
         f.value ∉ (known_subject_identifiers env s).phones)) := by
  have hyp : ∃ art ∈ s.artifacts, ∃ rf ∈ detect art.content,
      classifyFinding (known_subject_identifiers env s) art rf = f := by
    simpa [detect_pii, logState] using hf
  obtain ⟨art, hart, rf, hrf, heq⟩ := hyp
  subst heq
  rcases detect_types art.content rf hrf with ht | ⟨ht, hstrip⟩ | ht
  · simp [classifyFinding, ht]
  · simp [classifyFinding, ht, hstrip]
  · simp [classifyFinding, ht]

/-- Record whose one artifact is exactly a phone number. -/
def stateC5 : RunState :=
  { emptyState with
    artifacts := [{ source := "files", id := "a1", type := "file",
                    content := "+1-555-0101".toList }] }

/-- The finding detect_pii emits on stateC5. -/
def findingC5 : Finding :=
  { artifact_id := "a1", pii_type := "phone", value := "+1-555-0101".toList,
    start := 0, «end» := 11, confidence := (0.9 : ℚ), third_party := true }

/-- C5 witness: the phone finding of the concrete record is marked
third-party, and by the theorem that is exactly because its raw value
is outside the (empty) subject phone set. -/
theorem detect_pii_third_party_witness :
    findingC5.third_party = true := by
  have hmem : findingC5 ∈ (detect_pii emptyEnv stateC5).state.pii_findings := by
    have hls : (detect_pii emptyEnv stateC5).state.pii_findings = [findingC5] := rfl
    rw [hls]
    exact List.mem_singleton.mpr rfl
  exact (detect_pii_third_party emptyEnv stateC5 findingC5 hmem).mpr
    (Or.inr ⟨rfl, by decide⟩)

end GdprGuardian
